import Mathlib

/-!
Shallow embedding of the `bitcynth/certstore` repository
(`certstore_windows.go` and `certstore_linux.go`).

Native Windows calls are modelled by explicit oracles describing the
outcome of each native call, and every operation returns — besides its
result and the updated receiver — the list of native calls it actually
performed, so that "before any native call" and "releases every handle"
properties can be stated.
-/

/-- Errors as produced with the pkg/errors library: `errNew` models
`errors.New`, `errCode` the `errCode` type wrapping a Windows error code
(`certstore_windows.go` line 673), `secStatus` the `securityStatus` type,
and `wrap` models `errors.Wrap`. -/
inductive GoErr where
  | errNew (msg : String)
  | errCode (code : Nat)
  | secStatus (code : Int)
  | wrap (inner : GoErr) (msg : String)
  deriving DecidableEq, Repr

/-- `errors.Cause`: unwraps all `errors.Wrap` layers. -/
def GoErr.cause : GoErr → GoErr
  | .wrap e _ => e.cause
  | e => e

/-- `lastError(msg)` = `errors.Wrap(errCode(C.GetLastError()), msg)`;
the current thread's last-error code is passed explicitly. -/
def lastError (code : Nat) (msg : String) : GoErr :=
  .wrap (.errCode code) msg

/-- `checkStatus` (line 699): `ERROR_SUCCESS = 0` means no error,
anything else yields a `securityStatus` error. -/
def checkStatus (s : Int) : Option GoErr :=
  if s = 0 then none else some (.secStatus s)

/-- `cryptENotFound` (line 677): `CRYPT_E_NOT_FOUND & (1<<32 - 1)`,
the benign "no more entries" code. -/
def cryptENotFound : Nat := 0x80092004

/-- `CERT_NCRYPT_KEY_SPEC`: key-spec discriminator selecting the CNG
backend in `newWinPrivateKey`. -/
def certNcryptKeySpec : Nat := 0xFFFFFFFF

/-- The native calls the code can perform; traces of these are returned
by every modelled operation. -/
inductive NativeCall where
  | certOpenStore
  | certFindCertificateInStore
  | certDuplicateContext (id : Nat)
  | certFreeContext (id : Nat)
  | certCloseStore
  | pfxImportCertStore
  | certAddEncodedToStore (id : Nat)
  | cryptFindKeyProvInfo
  | cryptAcquirePrivateKey
  | ncryptSignHash
  | cryptCreateHash
  | cryptDestroyHash
  | cryptGetHashParam
  | cryptSetHashParam
  | cryptSignHash
  | ncryptFreeObject
  | cryptReleaseContext
  deriving DecidableEq, Repr

/-- A `PCCERT_CONTEXT`: a certificate context with an identifying handle
and its DER-encoded bytes (`pbCertEncoded`/`cbCertEncoded`). -/
structure CertCtx where
  id : Nat
  encoded : List Nat
  deriving DecidableEq, Repr

/-- Public key kinds distinguished by the signing dispatch
(`*rsa.PublicKey` / `*ecdsa.PublicKey` type switches). -/
inductive PubKey where
  | rsa
  | ec
  | other
  deriving DecidableEq, Repr

/-- `crypto.Hash` values used by `Sign`; `other` covers every hash
outside the four the code supports, with its `Size()`. -/
inductive HashAlg where
  | sha1
  | sha256
  | sha384
  | sha512
  | other (sz : Nat)
  deriving DecidableEq, Repr

/-- `crypto.Hash.Size()`. -/
def HashAlg.size : HashAlg → Nat
  | .sha1 => 20
  | .sha256 => 32
  | .sha384 => 48
  | .sha512 => 64
  | .other sz => sz

/-- `winPrivateKey` (line 210): public key plus the two mutually
exclusive backend fields (`capiProv` CryptoAPI, `cngHandle` CNG) and the
CryptoAPI `keySpec`. `0` models a zero (absent) handle. -/
structure WinPrivateKey where
  publicKey : PubKey
  capiProv : Nat
  cngHandle : Nat
  keySpec : Nat
  deriving DecidableEq, Repr

/-- Outcomes of the native calls made by `cngSignHash`: the status of
the length-query `NCryptSignHash`, the status of the signing
`NCryptSignHash`, and the signature bytes the native call writes. -/
structure CngOracle where
  lenStatus : Int
  signStatus : Int
  sigBytes : List Nat
  deriving DecidableEq, Repr

/-- Outcomes of the native calls made by `capiSignHash`. -/
structure CapiOracle where
  createHashOk : Bool
  createHashErr : Nat
  getHashParamOk : Bool
  getHashParamErr : Nat
  hashSize : Nat
  setHashParamOk : Bool
  setHashParamErr : Nat
  signLenOk : Bool
  signLenErr : Nat
  signOk : Bool
  signErr : Nat
  sigBytes : List Nat
  deriving DecidableEq, Repr

/-- The hash algorithms accepted by the RSA padding switch in
`cngSignHash` (lines 301-312): SHA-1/256/384/512. -/
def cngPadAlgOk : HashAlg → Bool
  | .sha1 => true
  | .sha256 => true
  | .sha384 => true
  | .sha512 => true
  | .other _ => false

/-- The `ALG_ID` switch in `capiSignHash` (lines 360-371):
`CALG_SHA1`, `CALG_SHA_256`, `CALG_SHA_384`, `CALG_SHA_512`. -/
def capiHashAlg : HashAlg → Option Nat
  | .sha1 => some 0x8004
  | .sha256 => some 0x800c
  | .sha384 => some 0x800d
  | .sha512 => some 0x800e
  | .other _ => none

/-- Big-endian base-256 digits of `n`, most significant first, no
leading zeros — `big.Int.Bytes()`. -/
def natBytesBE (n : Nat) : List Nat :=
  if h : n = 0 then []
  else natBytesBE (n / 256) ++ [n % 256]
decreasing_by exact Nat.div_lt_self (Nat.pos_of_ne_zero h) (by norm_num)

/-- `big.Int.SetBytes`: interpret bytes as a big-endian unsigned
integer. -/
def bytesToNat (bs : List Nat) : Nat :=
  bs.foldl (fun acc b => acc * 256 + b) 0

/-- ASN.1 DER content octets of a non-negative INTEGER, as
`encoding/asn1` marshals a `*big.Int`: minimal big-endian magnitude,
with a leading `0x00` when the top bit would be set, `[0x00]` for 0. -/
def asn1IntContent (n : Nat) : List Nat :=
  match natBytesBE n with
  | [] => [0]
  | b :: rest => if 128 ≤ b then 0 :: b :: rest else b :: rest

/-- DER length octets: short form below 128, long form otherwise. -/
def asn1LenBytes (len : Nat) : List Nat :=
  if len < 128 then [len]
  else (128 + (natBytesBE len).length) :: natBytesBE len

/-- A DER INTEGER (tag `0x02`). -/
def asn1Int (n : Nat) : List Nat :=
  2 :: (asn1LenBytes (asn1IntContent n).length ++ asn1IntContent n)

/-- `asn1.Marshal(ecdsaSignature{r, s})`: a DER SEQUENCE (tag `0x30`)
of two INTEGERs. -/
def ecdsaSigDER (r s : Nat) : List Nat :=
  48 :: (asn1LenBytes (asn1Int r ++ asn1Int s).length ++ (asn1Int r ++ asn1Int s))

/-- One iteration of the byte-swap loop in `capiSignHash`
(lines 420-423): `sig[i], sig[opp] = sig[opp], sig[i]`. -/
def swapAt (l : List Nat) (i j : Nat) : List Nat :=
  (l.set i (l.getD j 0)).set j (l.getD i 0)

/-- The swap loop, running `i` from `k-1` down to `0` with
`opp = len - 1 - i`. -/
def revLoop (l : List Nat) : Nat → List Nat
  | 0 => l
  | k + 1 => revLoop (swapAt l k (l.length - 1 - k)) k

/-- The in-place reversal performed by `capiSignHash` on the native
signature bytes: `for i := len(sig)/2 - 1; i >= 0; i--`. -/
def capiReverse (l : List Nat) : List Nat :=
  revLoop l (l.length / 2)

/-- `winPrivateKey.cngSignHash` (line 279). Results: the returned
signature bytes or error, the receiver (never written by the source),
and the trace of native calls performed. -/
def cngSignHash (wpk : WinPrivateKey) (hash : HashAlg) (digest : List Nat)
    (o : CngOracle) : Except GoErr (List Nat) × WinPrivateKey × List NativeCall :=
  if digest.length ≠ hash.size then
    (.error (.errNew "bad digest for hash"), wpk, [])
  else if wpk.publicKey = .rsa && !cngPadAlgOk hash then
    (.error (.errNew "unsupported hash algorithm"), wpk, [])
  else
    match checkStatus o.lenStatus with
    | some e => (.error (e.wrap "failed to get signature length"), wpk, [.ncryptSignHash])
    | none =>
      match checkStatus o.signStatus with
      | some e =>
        (.error (e.wrap "failed to sign digest"), wpk, [.ncryptSignHash, .ncryptSignHash])
      | none =>
        let sig := o.sigBytes
        if wpk.publicKey = .ec then
          if sig.length % 2 ≠ 0 then
            (.error (.errNew "bad ecdsa signature from CNG"), wpk,
              [.ncryptSignHash, .ncryptSignHash])
          else
            (.ok (ecdsaSigDER (bytesToNat (sig.take (sig.length / 2)))
                (bytesToNat (sig.drop (sig.length / 2)))), wpk,
              [.ncryptSignHash, .ncryptSignHash])
        else
          (.ok sig, wpk, [.ncryptSignHash, .ncryptSignHash])

/-- `winPrivateKey.capiSignHash` (line 352). The deferred
`CryptDestroyHash` fires on every path after a successful
`CryptCreateHash`. -/
def capiSignHash (wpk : WinPrivateKey) (hash : HashAlg) (digest : List Nat)
    (o : CapiOracle) : Except GoErr (List Nat) × WinPrivateKey × List NativeCall :=
  if digest.length ≠ hash.size then
    (.error (.errNew "bad digest for hash"), wpk, [])
  else
    match capiHashAlg hash with
    | none => (.error (.errNew "unsupported hash algorithm"), wpk, [])
    | some _ =>
      if !o.createHashOk then
        (.error (lastError o.createHashErr "failed to create hash"), wpk,
          [.cryptCreateHash])
      else if !o.getHashParamOk then
        (.error (lastError o.getHashParamErr "failed to get hash size"), wpk,
          [.cryptCreateHash, .cryptGetHashParam, .cryptDestroyHash])
      else if hash.size ≠ o.hashSize then
        (.error (.errNew "invalid CryptoAPI hash"), wpk,
          [.cryptCreateHash, .cryptGetHashParam, .cryptDestroyHash])
      else if !o.setHashParamOk then
        (.error (lastError o.setHashParamErr "failed to set hash digest"), wpk,
          [.cryptCreateHash, .cryptGetHashParam, .cryptSetHashParam, .cryptDestroyHash])
      else if !o.signLenOk then
        (.error (lastError o.signLenErr "failed to get signature length"), wpk,
          [.cryptCreateHash, .cryptGetHashParam, .cryptSetHashParam, .cryptSignHash,
            .cryptDestroyHash])
      else if !o.signOk then
        (.error (lastError o.signErr "failed to sign digest"), wpk,
          [.cryptCreateHash, .cryptGetHashParam, .cryptSetHashParam, .cryptSignHash,
            .cryptSignHash, .cryptDestroyHash])
      else
        (.ok (capiReverse o.sigBytes), wpk,
          [.cryptCreateHash, .cryptGetHashParam, .cryptSetHashParam, .cryptSignHash,
            .cryptSignHash, .cryptDestroyHash])

/-- `winPrivateKey.Sign` (line 268): dispatch on the populated backend
field, CryptoAPI first. -/
def WinPrivateKey.Sign (wpk : WinPrivateKey) (hash : HashAlg) (digest : List Nat)
    (oCapi : CapiOracle) (oCng : CngOracle) :
    Except GoErr (List Nat) × WinPrivateKey × List NativeCall :=
  if wpk.capiProv ≠ 0 then capiSignHash wpk hash digest oCapi
  else if wpk.cngHandle ≠ 0 then cngSignHash wpk hash digest oCng
  else (.error (.errNew "bad private key"), wpk, [])

/-- `winPrivateKey.Close` (line 493): frees whichever backend handles
are populated. -/
def WinPrivateKey.Close (wpk : WinPrivateKey) : List NativeCall :=
  (if wpk.cngHandle ≠ 0 then [NativeCall.ncryptFreeObject] else []) ++
  (if wpk.capiProv ≠ 0 then [NativeCall.cryptReleaseContext] else [])

/-- `winStore` (line 503): the native collection is modelled by its
entries in iteration order and the `GetLastError` code the native find
reports once the entries are exhausted (or on a genuine mid-iteration
failure). `storePresent` models `s.store != nil`. -/
structure WinStore where
  storePresent : Bool
  entries : List CertCtx
  failCode : Nat
  prev : Option CertCtx
  err : Option GoErr
  closed : Bool
  deriving DecidableEq, Repr

/-- `winStore._check` (line 657). The nil-receiver and nil-handle cases
share the message "nil winStore pointer" in the source; the nil-handle
case is the one modelled. -/
def WinStore.check (s : WinStore) : Option GoErr :=
  if !s.storePresent then some (.errNew "nil winStore pointer")
  else if s.closed then some (.errNew "store closed")
  else none

/-- The entries strictly after the first occurrence of `p`: the cursor
semantics of `CertFindCertificateInStore` given a previous context. -/
def afterOcc : List CertCtx → CertCtx → List CertCtx
  | [], _ => []
  | c :: rest, p => if c = p then rest else afterOcc rest p

/-- Remaining entries given the cursor `prev` (`nil` restarts from the
beginning). -/
def remAfter (entries : List CertCtx) : Option CertCtx → List CertCtx
  | none => entries
  | some p => afterOcc entries p

/-- `winStore.nextCert` (line 583). -/
def WinStore.nextCert (s : WinStore) : Option CertCtx × WinStore × List NativeCall :=
  let s := match s.check with
    | some e => { s with err := some e }
    | none => s
  if s.err.isSome then (none, s, [])
  else
    match (remAfter s.entries s.prev).head? with
    | some c => (some c, { s with prev := some c }, [.certFindCertificateInStore])
    | none =>
      (none,
        { s with prev := none,
                 err := some (lastError s.failCode "CertFindCertificateInStore failed") },
        [.certFindCertificateInStore])

/-- `winStore.getError` (line 612). -/
def WinStore.getError (s : WinStore) : Option GoErr :=
  match s.check with
  | some e => some e
  | none =>
    match s.err with
    | some e => if e.cause = .errCode cryptENotFound then none else some e
    | none => none

/-- `winStore.reset` (line 627). -/
def WinStore.reset (s : WinStore) : Option GoErr × WinStore × List NativeCall :=
  match s.check with
  | some e => (some e, s, [])
  | none =>
    let tr := match s.prev with
      | some c => [NativeCall.certFreeContext c.id]
      | none => []
    (none, { s with prev := none, err := none }, tr)

/-- `winStore.Close` (line 643). -/
def WinStore.Close (s : WinStore) : WinStore × List NativeCall :=
  match s.check with
  | some _ => (s, [])
  | none =>
    let tr := match s.prev with
      | some c => [NativeCall.certFreeContext c.id]
      | none => []
    ({ s with closed := true }, tr ++ [.certCloseStore])

/-- `winIdentity` (line 68). -/
structure WinIdentity where
  ctx : Option CertCtx
  signer : Option WinPrivateKey
  closed : Bool
  deriving DecidableEq, Repr

/-- `newWinIdentity` (line 74): duplicates the certificate context. -/
def newWinIdentity (ctx : CertCtx) : WinIdentity × List NativeCall :=
  ({ ctx := some ctx, signer := none, closed := false },
    [.certDuplicateContext ctx.id])

/-- `winIdentity._check` (line 193). -/
def WinIdentity.check (i : WinIdentity) : Option GoErr :=
  if i.ctx.isNone then some (.errNew "nil certificate context")
  else if i.closed then some (.errNew "identity closed")
  else none

/-- `winIdentity.Close` (line 181). Note that the source never sets
`i.closed`, so the returned identity is unchanged. -/
def WinIdentity.Close (i : WinIdentity) : WinIdentity × List NativeCall :=
  match i.check with
  | some _ => (i, [])
  | none =>
    let trSigner := match i.signer with
      | some k => k.Close
      | none => []
    match i.ctx with
    | some c => (i, trSigner ++ [.certFreeContext c.id])
    | none => (i, trSigner)

/-- The result of `x509.ParseCertificate` that the key-acquisition path
uses: the certificate's public key (possibly nil). -/
structure ParsedCert where
  publicKey : Option PubKey
  deriving DecidableEq, Repr

/-- `winIdentity.GetCertificate` (line 113); `parse` is the
`x509.ParseCertificate` oracle on the context's encoded bytes. -/
def WinIdentity.GetCertificate (i : WinIdentity)
    (parse : List Nat → Except String ParsedCert) : Except GoErr ParsedCert :=
  match i.check with
  | some e => .error e
  | none =>
    match i.ctx with
    | none => .error (.errNew "nil certificate context")
    | some c =>
      match parse c.encoded with
      | .error m => .error (GoErr.wrap (.errNew m) "certificate parsing failed")
      | .ok cert => .ok cert

/-- Outcomes of the native calls made by `newWinPrivateKey`:
`CryptFindCertificateKeyProvInfo`, then
`CryptAcquireCertificatePrivateKey` with its `keySpec` and `mustFree`
out-parameters and the acquired handle. -/
structure AcquireOracle where
  findProvOk : Bool
  findProvErr : Nat
  acquireOk : Bool
  acquireErr : Nat
  mustFree : Bool
  keySpec : Nat
  provOrKey : Nat
  deriving DecidableEq, Repr

/-- `newWinPrivateKey` (line 222). -/
def newWinPrivateKey (publicKey : Option PubKey) (o : AcquireOracle) :
    Except GoErr WinPrivateKey × List NativeCall :=
  match publicKey with
  | none => (.error (.errNew "nil public key"), [])
  | some pk =>
    if !o.findProvOk then
      (.error (lastError o.findProvErr "failed to find private key for certificate"),
        [.cryptFindKeyProvInfo])
    else if !o.acquireOk then
      (.error (lastError o.acquireErr "failed to get private key for certificate"),
        [.cryptFindKeyProvInfo, .cryptAcquirePrivateKey])
    else if !o.mustFree then
      (.error (.errNew "CryptAcquireCertificatePrivateKey set mustFree"),
        [.cryptFindKeyProvInfo, .cryptAcquirePrivateKey])
    else if o.keySpec = certNcryptKeySpec then
      (.ok { publicKey := pk, capiProv := 0, cngHandle := o.provOrKey, keySpec := 0 },
        [.cryptFindKeyProvInfo, .cryptAcquirePrivateKey])
    else
      (.ok { publicKey := pk, capiProv := o.provOrKey, cngHandle := 0,
             keySpec := o.keySpec },
        [.cryptFindKeyProvInfo, .cryptAcquirePrivateKey])

/-- `winIdentity.getPrivateKey` (line 134): check, return the memoized
signer if present, otherwise parse the certificate, acquire a key, and
memoize it. -/
def WinIdentity.getPrivateKey (i : WinIdentity)
    (parse : List Nat → Except String ParsedCert) (o : AcquireOracle) :
    Except GoErr WinPrivateKey × WinIdentity × List NativeCall :=
  match i.check with
  | some e => (.error e, i, [])
  | none =>
    match i.signer with
    | some k => (.ok k, i, [])
    | none =>
      match i.GetCertificate parse with
      | .error e => (.error (e.wrap "failed to get identity certificate"), i, [])
      | .ok cert =>
        match newWinPrivateKey cert.publicKey o with
        | (.error e, tr) =>
          (.error (e.wrap "failed to load identity private key"), i, tr)
        | (.ok k, tr) => (.ok k, { i with signer := some k }, tr)

/-- `winIdentity.GetSigner` (line 129): delegates to `getPrivateKey`. -/
def WinIdentity.GetSigner (i : WinIdentity)
    (parse : List Nat → Except String ParsedCert) (o : AcquireOracle) :
    Except GoErr WinPrivateKey × WinIdentity × List NativeCall :=
  i.getPrivateKey parse o

/-- The cleanup loop `for _, ident := range idents ident.Close()`. -/
def closeAll (idents : List WinIdentity) : List NativeCall :=
  (idents.map (fun i => (WinIdentity.Close i).2)).flatten

/-- The iteration loop of `findIdentities` (line 97), fuelled; the fuel
chosen by the callers below always exceeds the number of iterations the
loop can perform. -/
def findIdentitiesLoop : Nat → WinStore → List WinIdentity → List NativeCall →
    List WinIdentity × WinStore × List NativeCall
  | 0, s, acc, tr => (acc, s, tr)
  | fuel + 1, s, acc, tr =>
    match s.nextCert with
    | (none, s1, tr1) => (acc, s1, tr ++ tr1)
    | (some c, s1, tr1) =>
      let (ident, trDup) := newWinIdentity c
      findIdentitiesLoop fuel s1 (acc ++ [ident]) (tr ++ tr1 ++ trDup)

/-- `findIdentities` (line 94): drain the store, then on a genuine
iteration error close every built identity and fail. -/
def findIdentities (s : WinStore) :
    Except GoErr (List WinIdentity) × WinStore × List NativeCall :=
  let (idents, s1, tr) := findIdentitiesLoop (s.entries.length + 2) s [] []
  match s1.getError with
  | some e => (.error (e.wrap "identity iteration failed"), s1, tr ++ closeAll idents)
  | none => (.ok idents, s1, tr)

/-- `FindIdentities` (line 79): open the MY store (outcome passed as
`openResult`, an error being the `GetLastError` code of
`CertOpenStore`), enumerate, and close the store on every path (the
deferred `store.Close()`). -/
def FindIdentities (openResult : Except Nat WinStore) :
    Except GoErr (List WinIdentity) × List NativeCall :=
  match openResult with
  | .error code =>
    (.error ((lastError code "failed to open system cert store").wrap
        "openMyCertStore failed"),
      [.certOpenStore])
  | .ok store =>
    let (res, s1, tr) := findIdentities store
    let (_, trClose) := s1.Close
    match res with
    | .error e => (.error (e.wrap "findIdentities failed"), .certOpenStore :: (tr ++ trClose))
    | .ok idents => (.ok idents, .certOpenStore :: (tr ++ trClose))

/-- Outcomes of the native calls made by `winStore.importPFX`:
`PFXImportCertStore` (whose transient store is described by its entries
and terminal find code) and per-entry
`CertAddEncodedCertificateToStore` (an error is the `GetLastError`
code, success yields the new context added to the MY store). -/
structure PfxOracle where
  importOk : Bool
  importErr : Nat
  pfxEntries : List CertCtx
  pfxFailCode : Nat
  addOutcome : CertCtx → Except Nat CertCtx

/-- The iteration loop of `importPFX` (line 556), fuelled like
`findIdentitiesLoop`; a `some` first component is the early-return
error after a failed certificate insertion (having closed the
identities built so far). -/
def importPFXLoop (add : CertCtx → Except Nat CertCtx) :
    Nat → WinStore → List WinIdentity → List NativeCall →
    Option GoErr × List WinIdentity × WinStore × List NativeCall
  | 0, ws, acc, tr => (none, acc, ws, tr)
  | fuel + 1, ws, acc, tr =>
    match ws.nextCert with
    | (none, ws1, tr1) => (none, acc, ws1, tr ++ tr1)
    | (some c, ws1, tr1) =>
      match add c with
      | .error code =>
        (some (lastError code "failed to add imported certificate to MY store"), acc, ws1,
          tr ++ tr1 ++ [.certAddEncodedToStore c.id] ++ closeAll acc)
      | .ok newCtx =>
        let (ident, trDup) := newWinIdentity newCtx
        importPFXLoop add fuel ws1 (acc ++ [ident])
          (tr ++ tr1 ++ [.certAddEncodedToStore c.id] ++ trDup)

/-- `winStore.importPFX` (line 525). Note the source performs no
`_check` on the receiver `s`; the transient store is closed on every
path (the deferred `wstore.Close()`). -/
def WinStore.importPFX (s : WinStore) (o : PfxOracle) :
    Except GoErr (List WinIdentity) × WinStore × List NativeCall :=
  if !o.importOk then
    (.error (lastError o.importErr "failed to import PFX cert store"), s,
      [.pfxImportCertStore])
  else
    let ws : WinStore :=
      { storePresent := true, entries := o.pfxEntries, failCode := o.pfxFailCode,
        prev := none, err := none, closed := false }
    match importPFXLoop o.addOutcome (o.pfxEntries.length + 2) ws [] [.pfxImportCertStore] with
    | (some e, _, ws1, tr) =>
      let (_, trClose) := ws1.Close
      (.error e, s, tr ++ trClose)
    | (none, idents, ws1, tr) =>
      match ws1.getError with
      | some e =>
        let (_, trClose) := ws1.Close
        (.error e, s, tr ++ closeAll idents ++ trClose)
      | none =>
        let (_, trClose) := ws1.Close
        (.ok idents, s, tr ++ trClose)

/-- A certificate found through the PKCS#11 binding
(`certstore_linux.go`). -/
structure LinuxCert where
  subjectKeyId : Nat
  deriving DecidableEq, Repr

/-- A key pair found through the PKCS#11 binding. -/
structure LinuxSigner where
  id : Nat
  deriving DecidableEq, Repr

/-- `linuxIdent` (`certstore_linux.go` line 21). -/
structure LinuxIdent where
  cert : LinuxCert
  signer : LinuxSigner
  deriving DecidableEq, Repr

/-- How a Go function call can end: returning a value, returning an
error value, or aborting the process via `panic`. -/
inductive LinuxOutcome (α : Type) where
  | ok (a : α)
  | errVal (msg : String)
  | panics (msg : String)
  deriving DecidableEq, Repr

/-- `linuxStore.Identities` (`certstore_linux.go` line 42): the outcomes
of `FindCertificate` and `FindKeyPair` are passed explicitly; the
source calls `panic(err)` on either failure. -/
def linuxIdentities (findCert : Except String LinuxCert)
    (findKeyPair : Except String LinuxSigner) : LinuxOutcome (List LinuxIdent) :=
  match findCert with
  | .error e => .panics e
  | .ok cert =>
    match findKeyPair with
    | .error e => .panics e
    | .ok signer => .ok [{ cert := cert, signer := signer }]

/-! ## Theorems -/

/-- C2 (code_bug evidence): `winIdentity.Close` never sets the `closed`
flag. On a freshly built identity, `Close` frees the certificate
context but leaves `closed = false`, and a second `Close` passes
`_check` and frees the same context again — it is not a guarded
no-op. -/
theorem winIdentity_close_not_guarded :
    ((newWinIdentity ⟨7, [48]⟩).1.Close).1.closed = false ∧
    ((newWinIdentity ⟨7, [48]⟩).1.Close).2 = [.certFreeContext 7] ∧
    (((newWinIdentity ⟨7, [48]⟩).1.Close).1.Close).2 = [.certFreeContext 7] :=
  ⟨rfl, rfl, rfl⟩

/-- C3 (counterexample): when the native `FindCertificate` lookup
fails, `linuxStore.Identities` panics — the failure is not returned to
the caller as an error value. -/
theorem linuxIdentities_panics_cx :
    linuxIdentities (.error "FindCertificate failed") (.ok ⟨0⟩) =
      .panics "FindCertificate failed" := rfl

/-- C3 (amended): the alternate-platform store's `Identities` aborts
the process (panics) whenever either native lookup fails, rather than
returning the failure as an error value; only the double-success path
returns a value. -/
theorem linuxIdentities_panics_on_failure (e e2 : String)
    (fk : Except String LinuxSigner) (c : LinuxCert) (sg : LinuxSigner) :
    linuxIdentities (.error e) fk = .panics e ∧
    linuxIdentities (.ok c) (.error e2) = .panics e2 ∧
    linuxIdentities (.ok c) (.ok sg) = .ok [⟨c, sg⟩] :=
  ⟨rfl, rfl, rfl⟩

/-- C4: on either backend, `sign(digest, h)` with
`len(digest) ≠ h.size` fails with the digest-size error before any
native call, leaving the key handle unchanged. -/
theorem sign_rejects_digest_size_mismatch (wpk : WinPrivateKey) (hash : HashAlg)
    (digest : List Nat) (oc : CngOracle) (oa : CapiOracle)
    (h : digest.length ≠ hash.size) :
    cngSignHash wpk hash digest oc = (.error (.errNew "bad digest for hash"), wpk, []) ∧
    capiSignHash wpk hash digest oa = (.error (.errNew "bad digest for hash"), wpk, []) := by
  constructor
  · simp [cngSignHash, h]
  · simp [capiSignHash, h]

/-- Witness for C4 at a concrete input. -/
theorem sign_rejects_digest_size_mismatch_witness :
    ([] : List Nat).length ≠ HashAlg.sha256.size ∧
    (cngSignHash ⟨.rsa, 1, 0, 1⟩ .sha256 [] ⟨0, 0, []⟩ =
        (.error (.errNew "bad digest for hash"), ⟨.rsa, 1, 0, 1⟩, []) ∧
      capiSignHash ⟨.rsa, 1, 0, 1⟩ .sha256 []
          ⟨true, 0, true, 0, 32, true, 0, true, 0, true, 0, []⟩ =
        (.error (.errNew "bad digest for hash"), ⟨.rsa, 1, 0, 1⟩, [])) :=
  ⟨by decide, sign_rejects_digest_size_mismatch _ _ _ _ _ (by decide)⟩

/-- C5: on the CNG path with an elliptic-curve key, a native signature
of odd byte length is rejected with the bad-signature error; otherwise
the returned bytes are the DER encoding of the two-integer record
`(r, s)` with `r` read big-endian from the first half of the native
bytes and `s` from the second half — the raw concatenated native form
is never what is returned. -/
theorem cngSignHash_ec_encoding (wpk : WinPrivateKey) (hash : HashAlg)
    (digest : List Nat) (o : CngOracle)
    (hec : wpk.publicKey = .ec) (hd : digest.length = hash.size)
    (hlen : o.lenStatus = 0) (hsig : o.signStatus = 0) :
    (o.sigBytes.length % 2 = 1 →
      cngSignHash wpk hash digest o =
        (.error (.errNew "bad ecdsa signature from CNG"), wpk,
          [.ncryptSignHash, .ncryptSignHash])) ∧
    (o.sigBytes.length % 2 = 0 →
      cngSignHash wpk hash digest o =
        (.ok (ecdsaSigDER (bytesToNat (o.sigBytes.take (o.sigBytes.length / 2)))
            (bytesToNat (o.sigBytes.drop (o.sigBytes.length / 2)))), wpk,
          [.ncryptSignHash, .ncryptSignHash])) := by
  constructor
  · intro hodd
    simp [cngSignHash, hd, hec, checkStatus, hlen, hsig, hodd]
  · intro heven
    simp [cngSignHash, hd, hec, checkStatus, hlen, hsig, heven]

/-- Witness for C5 at concrete inputs (a 4-byte native signature
`[1, 2, 3, 4]`, so `r = 0x0102` and `s = 0x0304`). -/
theorem cngSignHash_ec_encoding_witness :
    ((WinPrivateKey.mk .ec 0 5 0).publicKey = .ec ∧
      (List.replicate 32 0).length = HashAlg.sha256.size ∧
      (CngOracle.mk 0 0 [1, 2, 3, 4]).lenStatus = 0 ∧
      (CngOracle.mk 0 0 [1, 2, 3, 4]).signStatus = 0) ∧
    (([1, 2, 3, 4] : List Nat).length % 2 = 0 →
      cngSignHash ⟨.ec, 0, 5, 0⟩ .sha256 (List.replicate 32 0) ⟨0, 0, [1, 2, 3, 4]⟩ =
        (.ok (ecdsaSigDER (bytesToNat [1, 2]) (bytesToNat [3, 4])), ⟨.ec, 0, 5, 0⟩,
          [.ncryptSignHash, .ncryptSignHash])) :=
  ⟨⟨by decide, by decide, by decide, by decide⟩,
    (cngSignHash_ec_encoding ⟨.ec, 0, 5, 0⟩ .sha256 (List.replicate 32 0)
      ⟨0, 0, [1, 2, 3, 4]⟩ (by decide) (by decide) (by decide) (by decide)).2⟩

/-- C8: after iteration has recorded a wrapped native code, `getError`
on an open store returns no error exactly when the recorded code is the
benign `CRYPT_E_NOT_FOUND`, and returns the wrapped native error for
every other recorded code. -/
theorem getError_benign_vs_genuine (s : WinStore) (code : Nat) (msg : String)
    (hp : s.storePresent = true) (hc : s.closed = false)
    (he : s.err = some (GoErr.wrap (.errCode code) msg)) :
    (s.getError = none ↔ code = cryptENotFound) ∧
    (code ≠ cryptENotFound →
      s.getError = some (GoErr.wrap (.errCode code) msg)) := by
  have hcause : (GoErr.wrap (.errCode code) msg).cause = .errCode code := rfl
  constructor
  · simp [WinStore.getError, WinStore.check, hp, hc, he, hcause]
  · intro hne
    simp [WinStore.getError, WinStore.check, hp, hc, he, hcause, hne]

/-- Witness for C8 at concrete inputs: a store that recorded the benign
code reports no error; one that recorded code 5 reports the wrapped
error. -/
theorem getError_benign_vs_genuine_witness :
    ((WinStore.mk true [] 0 none
        (some (GoErr.wrap (.errCode cryptENotFound) "m")) false).getError = none ↔
      cryptENotFound = cryptENotFound) ∧
    ((WinStore.mk true [] 0 none (some (GoErr.wrap (.errCode 5) "m")) false).getError =
        none ↔ 5 = cryptENotFound) :=
  ⟨(getError_benign_vs_genuine _ cryptENotFound "m" rfl rfl rfl).1,
    (getError_benign_vs_genuine _ 5 "m" rfl rfl rfl).1⟩

/-- C10: once the store's error field is set, `nextCert` on an open
store returns the terminal `nil` immediately, performs no native call
and leaves the store unchanged; `reset` clears both the cursor and the
recorded error. -/
theorem nextCert_sticky_error_until_reset (s : WinStore) (e : GoErr)
    (hp : s.storePresent = true) (hc : s.closed = false) (he : s.err = some e) :
    s.nextCert = (none, s, []) ∧
    (s.reset).1 = none ∧ (s.reset).2.1.err = none ∧ (s.reset).2.1.prev = none := by
  have hchk : s.check = none := by simp [WinStore.check, hp, hc]
  refine ⟨?_, ?_, ?_, ?_⟩ <;> simp [WinStore.nextCert, WinStore.reset, hchk, he]

/-- Witness for C10 at a concrete input. -/
theorem nextCert_sticky_error_until_reset_witness :
    (WinStore.mk true [⟨1, [2]⟩] 0 none (some (.errNew "boom")) false).nextCert =
      (none, WinStore.mk true [⟨1, [2]⟩] 0 none (some (.errNew "boom")) false, []) ∧
    ((WinStore.mk true [⟨1, [2]⟩] 0 none (some (.errNew "boom")) false).reset).1 = none ∧
    ((WinStore.mk true [⟨1, [2]⟩] 0 none (some (.errNew "boom")) false).reset).2.1.err
      = none ∧
    ((WinStore.mk true [⟨1, [2]⟩] 0 none (some (.errNew "boom")) false).reset).2.1.prev
      = none :=
  nextCert_sticky_error_until_reset _ (.errNew "boom") rfl rfl rfl

/-- C9: once `getPrivateKey` has succeeded, the signer is memoized on
the identity, and every subsequent call returns that same handle with
no native call at all (in particular, any later parse/acquire oracle is
irrelevant). -/
theorem getPrivateKey_memoized (i i1 : WinIdentity) (c : CertCtx) (k : WinPrivateKey)
    (parse parse2 : List Nat → Except String ParsedCert) (o o2 : AcquireOracle)
    (tr : List NativeCall)
    (hc : i.ctx = some c) (hcl : i.closed = false)
    (h1 : i.getPrivateKey parse o = (.ok k, i1, tr)) :
    i1.signer = some k ∧ i1.getPrivateKey parse2 o2 = (.ok k, i1, []) := by
  have hchk : i.check = none := by simp [WinIdentity.check, hc, hcl]
  rw [WinIdentity.getPrivateKey, hchk] at h1
  cases hs : i.signer with
  | some k0 =>
    simp only [hs, Prod.mk.injEq, Except.ok.injEq] at h1
    obtain ⟨hk, hi, -⟩ := h1
    subst hk
    subst hi
    exact ⟨hs, by simp [WinIdentity.getPrivateKey, hchk, hs]⟩
  | none =>
    cases hg : i.GetCertificate parse with
    | error e =>
      simp only [hs, hg, Prod.mk.injEq, reduceCtorEq, false_and] at h1
    | ok cert =>
      rcases hnw : newWinPrivateKey cert.publicKey o with ⟨res, trn⟩
      cases res with
      | error e =>
        simp only [hs, hg, hnw, Prod.mk.injEq, reduceCtorEq, false_and] at h1
      | ok k2 =>
        simp only [hs, hg, hnw, Prod.mk.injEq, Except.ok.injEq] at h1
        obtain ⟨hk, hi, -⟩ := h1
        subst hk
        subst hi
        refine ⟨rfl, ?_⟩
        simp [WinIdentity.getPrivateKey, WinIdentity.check, hc, hcl]

/-- Witness for C9 at a concrete input: a first call resolving a
CryptoAPI key, then a second call with a different oracle returning the
cached handle. -/
theorem getPrivateKey_memoized_witness :
    ((WinIdentity.mk (some ⟨3, [9]⟩) none false).ctx = some ⟨3, [9]⟩ ∧
      (WinIdentity.mk (some ⟨3, [9]⟩) none false).closed = false ∧
      (WinIdentity.mk (some ⟨3, [9]⟩) none false).getPrivateKey
          (fun _ => .ok ⟨some .rsa⟩) ⟨true, 0, true, 0, true, 0, 7⟩ =
        (.ok ⟨.rsa, 7, 0, 0⟩, WinIdentity.mk (some ⟨3, [9]⟩) (some ⟨.rsa, 7, 0, 0⟩) false,
          [.cryptFindKeyProvInfo, .cryptAcquirePrivateKey])) ∧
    ((WinIdentity.mk (some ⟨3, [9]⟩) (some ⟨.rsa, 7, 0, 0⟩) false).signer =
        some ⟨.rsa, 7, 0, 0⟩ ∧
      (WinIdentity.mk (some ⟨3, [9]⟩) (some ⟨.rsa, 7, 0, 0⟩) false).getPrivateKey
          (fun _ => .error "unused") ⟨false, 1, false, 1, false, 1, 1⟩ =
        (.ok ⟨.rsa, 7, 0, 0⟩,
          WinIdentity.mk (some ⟨3, [9]⟩) (some ⟨.rsa, 7, 0, 0⟩) false, [])) :=
  ⟨⟨rfl, rfl, rfl⟩,
    getPrivateKey_memoized ⟨some ⟨3, [9]⟩, none, false⟩
      ⟨some ⟨3, [9]⟩, some ⟨.rsa, 7, 0, 0⟩, false⟩ ⟨3, [9]⟩ ⟨.rsa, 7, 0, 0⟩
      (fun _ => .ok ⟨some .rsa⟩) (fun _ => .error "unused")
      ⟨true, 0, true, 0, true, 0, 7⟩ ⟨false, 1, false, 1, false, 1, 1⟩
      [.cryptFindKeyProvInfo, .cryptAcquirePrivateKey] rfl rfl rfl⟩

/-- The trace accumulator of `importPFXLoop` is only ever appended to,
so whatever trace the loop starts with stays at the front. -/
theorem importPFXLoop_trace_accum (add : CertCtx → Except Nat CertCtx) :
    ∀ (fuel : Nat) (ws : WinStore) (acc : List WinIdentity) (tr : List NativeCall),
    ∃ rest, (importPFXLoop add fuel ws acc tr).2.2.2 = tr ++ rest := by
  intro fuel
  induction fuel with
  | zero => intro ws acc tr; exact ⟨[], by simp [importPFXLoop]⟩
  | succ f ih =>
    intro ws acc tr
    rcases hnc : ws.nextCert with ⟨oc, ws1, tr1⟩
    cases oc with
    | none => exact ⟨tr1, by simp [importPFXLoop, hnc]⟩
    | some c =>
      cases hadd : add c with
      | error code =>
        refine ⟨tr1 ++ [.certAddEncodedToStore c.id] ++ closeAll acc, ?_⟩
        simp [importPFXLoop, hnc, hadd]
      | ok newCtx =>
        obtain ⟨rest, hrest⟩ := ih ws1 (acc ++ [(newWinIdentity newCtx).1])
          (tr ++ tr1 ++ [.certAddEncodedToStore c.id] ++ (newWinIdentity newCtx).2)
        refine ⟨tr1 ++ [.certAddEncodedToStore c.id] ++ (newWinIdentity newCtx).2 ++ rest, ?_⟩
        simp only [importPFXLoop, hnc, hadd, newWinIdentity] at hrest ⊢
        rw [hrest]
        simp [List.append_assoc]

/-- C1 (amended): `nextCert`, `getError`, `reset` and `Close` all begin
with the nil/closed `_check` and fail with the invalid-state error
before any native call (for `nextCert`, recording the error and
returning the terminal signal; for `Close`, returning without doing
anything), but `importPFX` performs no such check: its first action is
the native `PFXImportCertStore` call even on a closed store. -/
theorem store_ops_invalid_state_first (s : WinStore) (o : PfxOracle)
    (h : s.closed = true ∨ s.storePresent = false) :
    (∃ e, s.check = some e ∧
      s.nextCert = (none, { s with err := some e }, []) ∧
      s.getError = some e ∧
      s.reset = (some e, s, []) ∧
      s.Close = (s, [])) ∧
    (s.importPFX o).2.2.head? = some .pfxImportCertStore := by
  have hchk : ∃ e, s.check = some e := by
    by_cases hp : s.storePresent
    · rcases h with h | h
      · exact ⟨.errNew "store closed", by simp [WinStore.check, hp, h]⟩
      · rw [hp] at h; cases h
    · exact ⟨.errNew "nil winStore pointer", by simp [WinStore.check, hp]⟩
  obtain ⟨e, he⟩ := hchk
  constructor
  · refine ⟨e, he, ?_, ?_, ?_, ?_⟩
    · simp [WinStore.nextCert, he]
    · simp [WinStore.getError, he]
    · simp [WinStore.reset, he]
    · simp [WinStore.Close, he]
  · by_cases hio : o.importOk
    · rcases hloop : importPFXLoop o.addOutcome (o.pfxEntries.length + 2)
          { storePresent := true, entries := o.pfxEntries, failCode := o.pfxFailCode,
            prev := none, err := none, closed := false } [] [.pfxImportCertStore]
        with ⟨oe, idents, ws1, tr⟩
      obtain ⟨rest, hrest⟩ := importPFXLoop_trace_accum o.addOutcome
        (o.pfxEntries.length + 2)
        { storePresent := true, entries := o.pfxEntries, failCode := o.pfxFailCode,
          prev := none, err := none, closed := false } [] [.pfxImportCertStore]
      rw [hloop] at hrest
      have hrest2 : tr = NativeCall.pfxImportCertStore :: rest := hrest
      simp only [WinStore.importPFX, hio, Bool.not_true, hloop]
      cases oe with
      | some e2 => simp [hrest2]
      | none =>
        cases hge : ws1.getError with
        | some e2 => simp [hge, hrest2]
        | none => simp [hge, hrest2]
    · simp only [Bool.not_eq_true] at hio
      simp [WinStore.importPFX, hio]

/-- Witness for C1 at a concrete closed store. -/
theorem store_ops_invalid_state_first_witness :
    ((WinStore.mk true [] 0 none none true).closed = true ∨
      (WinStore.mk true [] 0 none none true).storePresent = false) ∧
    ((∃ e, (WinStore.mk true [] 0 none none true).check = some e ∧
        (WinStore.mk true [] 0 none none true).nextCert =
          (none, { WinStore.mk true [] 0 none none true with err := some e }, []) ∧
        (WinStore.mk true [] 0 none none true).getError = some e ∧
        (WinStore.mk true [] 0 none none true).reset =
          (some e, WinStore.mk true [] 0 none none true, []) ∧
        (WinStore.mk true [] 0 none none true).Close =
          (WinStore.mk true [] 0 none none true, [])) ∧
      ((WinStore.mk true [] 0 none none true).importPFX
          ⟨true, 0, [], 0, fun _ => .ok ⟨0, []⟩⟩).2.2.head? =
        some .pfxImportCertStore) :=
  ⟨Or.inl rfl,
    store_ops_invalid_state_first _ ⟨true, 0, [], 0, fun _ => .ok ⟨0, []⟩⟩ (Or.inl rfl)⟩

/-- C1 (counterexample): `importPFX` called on an already-closed store
does not fail with an invalid-state error — it proceeds with the
native PFX store load and even succeeds, returning an identity. -/
theorem importPFX_skips_closed_check_cx :
    ((WinStore.mk true [] 0 none none true).importPFX
        ⟨true, 0, [⟨1, [10]⟩], cryptENotFound, fun _ => .ok ⟨2, [10]⟩⟩).1 =
      .ok [⟨some ⟨2, [10]⟩, none, false⟩] ∧
    NativeCall.pfxImportCertStore ∈
      ((WinStore.mk true [] 0 none none true).importPFX
        ⟨true, 0, [⟨1, [10]⟩], cryptENotFound, fun _ => .ok ⟨2, [10]⟩⟩).2.2 := by
  constructor
  · rfl
  · decide

/-- `swapAt` preserves the length. -/
theorem swapAt_length (l : List Nat) (i j : Nat) : (swapAt l i j).length = l.length := by
  simp [swapAt]

/-- `revLoop` preserves the length. -/
theorem revLoop_length (l : List Nat) (k : Nat) : (revLoop l k).length = l.length := by
  induction k generalizing l with
  | zero => rfl
  | succ k ih => rw [revLoop, ih, swapAt_length]

/-- Within bounds, `getElem?` is `some` of `getD`. -/
theorem getElem?_eq_some_getD (l : List Nat) (i : Nat) (h : i < l.length) :
    l[i]? = some (l.getD i 0) := by
  rw [List.getD_eq_getElem?_getD, List.getElem?_eq_getElem h]
  rfl

/-- Pointwise description of one swap. -/
theorem swapAt_getElem? (l : List Nat) (i j m : Nat) (hi : i < l.length)
    (hj : j < l.length) :
    (swapAt l i j)[m]? =
      if j = m then some (l.getD i 0)
      else if i = m then some (l.getD j 0) else l[m]? := by
  rw [swapAt, List.getElem?_set, List.getElem?_set]
  simp [List.length_set, hi, hj]

/-- Invariant of the swap loop: after processing the indices below `k`,
positions in the first `k` or last `k` slots hold the mirrored element,
all others are untouched. -/
theorem revLoop_getElem? (k : Nat) :
    ∀ (l : List Nat) (j : Nat), 2 * k ≤ l.length → j < l.length →
    (revLoop l k)[j]? =
      if j < k ∨ l.length - k ≤ j then l[l.length - 1 - j]? else l[j]? := by
  induction k with
  | zero =>
    intro l j hk hj
    have hcond : ¬ (j < 0 ∨ l.length - 0 ≤ j) := by omega
    rw [revLoop, if_neg hcond]
  | succ k ih =>
    intro l j hk hj
    have hn : (swapAt l k (l.length - 1 - k)).length = l.length := swapAt_length l _ _
    have hk1 : k < l.length := by omega
    have hk2 : l.length - 1 - k < l.length := by omega
    rw [revLoop, ih (swapAt l k (l.length - 1 - k)) j (by rw [hn]; omega) (by rw [hn]; exact hj),
      hn, swapAt_getElem? l k (l.length - 1 - k) (l.length - 1 - j) hk1 hk2,
      swapAt_getElem? l k (l.length - 1 - k) j hk1 hk2,
      ← getElem?_eq_some_getD l k hk1, ← getElem?_eq_some_getD l (l.length - 1 - k) hk2]
    split_ifs <;> first
      | rfl
      | omega
      | (congr 1; omega)
      | (exfalso; omega)

/-- The swap loop run to the midpoint is exactly list reversal. -/
theorem capiReverse_eq_reverse (l : List Nat) : capiReverse l = l.reverse := by
  apply List.ext_getElem?
  intro n
  by_cases hn : n < l.length
  · rw [capiReverse, revLoop_getElem? (l.length / 2) l n (by omega) hn,
      List.getElem?_reverse hn]
    by_cases h : n < l.length / 2 ∨ l.length - l.length / 2 ≤ n
    · rw [if_pos h]
    · rw [if_neg h]
      have hmid : l.length - 1 - n = n := by omega
      rw [hmid]
  · have h2 : (capiReverse l)[n]? = none := by
      rw [List.getElem?_eq_none]
      rw [capiReverse, revLoop_length]
      omega
    have h3 : l.reverse[n]? = none := by
      rw [List.getElem?_eq_none]
      rw [List.length_reverse]
      omega
    rw [h2, h3]

/-- C6: every successful legacy-backend sign call returns exactly the
reversal of the native signature bytes — the element at index `i` of
the result is the element at index `n - 1 - i` of the native output. -/
theorem capiSignHash_reverses_native_bytes (wpk : WinPrivateKey) (hash : HashAlg)
    (digest : List Nat) (o : CapiOracle)
    (hd : digest.length = hash.size) (halg : (capiHashAlg hash).isSome)
    (h1 : o.createHashOk = true) (h2 : o.getHashParamOk = true)
    (h3 : o.hashSize = hash.size) (h4 : o.setHashParamOk = true)
    (h5 : o.signLenOk = true) (h6 : o.signOk = true) :
    capiSignHash wpk hash digest o =
      (.ok (capiReverse o.sigBytes), wpk,
        [.cryptCreateHash, .cryptGetHashParam, .cryptSetHashParam, .cryptSignHash,
          .cryptSignHash, .cryptDestroyHash]) ∧
    capiReverse o.sigBytes = o.sigBytes.reverse ∧
    ∀ i, i < o.sigBytes.length →
      (capiReverse o.sigBytes)[i]? = o.sigBytes[o.sigBytes.length - 1 - i]? := by
  obtain ⟨a, ha⟩ := Option.isSome_iff_exists.mp halg
  refine ⟨?_, capiReverse_eq_reverse o.sigBytes, ?_⟩
  · simp [capiSignHash, hd, ha, h1, h2, h3, h4, h5, h6]
  · intro i hi
    rw [capiReverse_eq_reverse, List.getElem?_reverse hi]

/-- Witness for C6 at a concrete input: native bytes `[1, 2, 3]` come
back as `[3, 2, 1]`. -/
theorem capiSignHash_reverses_native_bytes_witness :
    capiSignHash ⟨.rsa, 9, 0, 2⟩ .sha256 (List.replicate 32 0)
        ⟨true, 0, true, 0, 32, true, 0, true, 0, true, 0, [1, 2, 3]⟩ =
      (.ok (capiReverse [1, 2, 3]), ⟨.rsa, 9, 0, 2⟩,
        [.cryptCreateHash, .cryptGetHashParam, .cryptSetHashParam, .cryptSignHash,
          .cryptSignHash, .cryptDestroyHash]) ∧
    capiReverse [1, 2, 3] = ([1, 2, 3] : List Nat).reverse ∧
    ∀ i, i < ([1, 2, 3] : List Nat).length →
      (capiReverse [1, 2, 3])[i]? = ([1, 2, 3] : List Nat)[3 - 1 - i]? :=
  capiSignHash_reverses_native_bytes ⟨.rsa, 9, 0, 2⟩ .sha256 (List.replicate 32 0)
    ⟨true, 0, true, 0, 32, true, 0, true, 0, true, 0, [1, 2, 3]⟩
    (by decide) (by decide) rfl rfl rfl rfl rfl rfl

/-- `afterOcc` always yields a suffix. -/
theorem afterOcc_suffix (l : List CertCtx) (p : CertCtx) : afterOcc l p <:+ l := by
  induction l with
  | nil => exact List.suffix_rfl
  | cons c rest ih =>
    rw [afterOcc]
    split
    · exact List.suffix_cons c rest
    · exact ih.trans (List.suffix_cons c rest)

/-- `remAfter` always yields a suffix. -/
theorem remAfter_suffix (entries : List CertCtx) (p : Option CertCtx) :
    remAfter entries p <:+ entries := by
  cases p with
  | none => exact List.suffix_rfl
  | some c => exact afterOcc_suffix entries c

/-- On a duplicate-free collection, the entries after the cursor `c`
are exactly the tail of the suffix starting at `c`. -/
theorem afterOcc_of_suffix (l r : List CertCtx) (c : CertCtx)
    (hnd : l.Nodup) (h : (c :: r) <:+ l) : afterOcc l c = r := by
  induction l with
  | nil =>
    rcases h with ⟨pre, hpre⟩
    simp at hpre
  | cons d ls ih =>
    rw [afterOcc]
    rcases List.suffix_cons_iff.mp h with heq | hsuf
    · injection heq with h1 h2
      subst h1
      subst h2
      simp
    · have hcmem : c ∈ ls := hsuf.mem (List.mem_cons_self c r)
      have hd : d ∉ ls := (List.nodup_cons.mp hnd).1
      have hne : d ≠ c := fun hdc => hd (hdc ▸ hcmem)
      rw [if_neg hne]
      exact ih (List.nodup_cons.mp hnd).2 hsuf

/-- `nextCert` on an open store with no recorded error: return the head
of the remaining entries or record the terminal failure. -/
theorem nextCert_open (s : WinStore) (hp : s.storePresent = true)
    (hc : s.closed = false) (he : s.err = none) :
    s.nextCert =
      match (remAfter s.entries s.prev).head? with
      | some c => (some c, { s with prev := some c }, [.certFindCertificateInStore])
      | none =>
        (none,
          { s with prev := none,
                   err := some (lastError s.failCode "CertFindCertificateInStore failed") },
          [.certFindCertificateInStore]) := by
  have hchk : s.check = none := by simp [WinStore.check, hp, hc]
  rw [WinStore.nextCert, hchk]
  simp [he]

/-- Closing a freshly enumerated identity frees its duplicated context. -/
theorem close_newWinIdentity (c : CertCtx) :
    ((newWinIdentity c).1.Close) =
      ((newWinIdentity c).1, [NativeCall.certFreeContext c.id]) := rfl

/-- Cleanup trace of a list of freshly enumerated identities. -/
theorem closeAll_map_newWinIdentity (entries : List CertCtx) :
    closeAll (entries.map fun c => (newWinIdentity c).1) =
      entries.flatMap fun c => [NativeCall.certFreeContext c.id] := by
  induction entries with
  | nil => rfl
  | cons c r ih =>
    simp only [List.map_cons, closeAll, List.flatten_cons, List.flatMap_cons] at ih ⊢
    rw [ih]
    rfl

/-- Closed form of the enumeration loop on an open error-free store:
it wraps every remaining entry and stops on the recorded terminal
failure. -/
theorem findIdentitiesLoop_spec (r : List CertCtx) :
    ∀ (s : WinStore) (acc : List WinIdentity) (tr : List NativeCall) (fuel : Nat),
    s.storePresent = true → s.closed = false → s.err = none →
    s.entries.Nodup → remAfter s.entries s.prev = r → r.length + 1 ≤ fuel →
    findIdentitiesLoop fuel s acc tr =
      (acc ++ r.map (fun c => (newWinIdentity c).1),
       { s with prev := none,
                err := some (lastError s.failCode "CertFindCertificateInStore failed") },
       tr ++ ((r.flatMap fun c =>
           [.certFindCertificateInStore, .certDuplicateContext c.id])
         ++ [.certFindCertificateInStore])) := by
  induction r with
  | nil =>
    intro s acc tr fuel hp hc he hnd hrem hfuel
    cases fuel with
    | zero => omega
    | succ f =>
      rw [findIdentitiesLoop, nextCert_open s hp hc he, hrem]
      simp
  | cons c r ih =>
    intro s acc tr fuel hp hc he hnd hrem hfuel
    cases fuel with
    | zero => simp at hfuel
    | succ f =>
      rw [findIdentitiesLoop, nextCert_open s hp hc he, hrem]
      simp only [List.head?_cons]
      have hsuf : (c :: r) <:+ s.entries := hrem ▸ remAfter_suffix s.entries s.prev
      have hrem2 : remAfter s.entries (some c) = r :=
        afterOcc_of_suffix s.entries r c hnd hsuf
      have hfuel2 : r.length + 1 ≤ f := by
        simp only [List.length_cons] at hfuel
        omega
      rw [ih { s with prev := some c } (acc ++ [(newWinIdentity c).1])
        (tr ++ [NativeCall.certFindCertificateInStore] ++ (newWinIdentity c).2) f
        hp hc he hnd hrem2 hfuel2]
      simp [newWinIdentity, List.flatMap_cons]

/-- C7: enumerating an open, duplicate-free store wraps every entry; if
iteration ends with a genuine (non-benign) failure the call returns an
error — never a partial list — after invoking `Close` (a
`CertFreeCertificateContext`) on every identity built so far, and the
store itself is closed (`CertCloseStore`) before returning on both the
success and the failure path. -/
theorem findIdentities_cleanup_on_failure (s : WinStore)
    (hp : s.storePresent = true) (hc : s.closed = false) (he : s.err = none)
    (hprev : s.prev = none) (hnd : s.entries.Nodup) :
    (s.failCode ≠ cryptENotFound →
      (FindIdentities (.ok s)).1 =
        .error (((lastError s.failCode "CertFindCertificateInStore failed").wrap
          "identity iteration failed").wrap "findIdentities failed") ∧
      (∀ c ∈ s.entries,
        NativeCall.certFreeContext c.id ∈ (FindIdentities (.ok s)).2) ∧
      NativeCall.certCloseStore ∈ (FindIdentities (.ok s)).2) ∧
    (s.failCode = cryptENotFound →
      (FindIdentities (.ok s)).1 = .ok (s.entries.map fun c => (newWinIdentity c).1) ∧
      NativeCall.certCloseStore ∈ (FindIdentities (.ok s)).2) := by
  have hloop := findIdentitiesLoop_spec s.entries s [] [] (s.entries.length + 2)
    hp hc he hnd (by rw [hprev]; rfl) (by omega)
  constructor
  · intro hfc
    refine ⟨?_, ?_, ?_⟩
    · simp only [FindIdentities, findIdentities, hloop, WinStore.getError,
        WinStore.check, WinStore.Close, hp, hc, lastError, GoErr.cause]
      simp [hfc]
    · intro c hcmem
      simp only [FindIdentities, findIdentities, hloop, WinStore.getError,
        WinStore.check, WinStore.Close, hp, hc, lastError, GoErr.cause,
        closeAll_map_newWinIdentity]
      simp [hfc, List.mem_append, List.mem_flatMap]
      rw [closeAll_map_newWinIdentity]
      exact List.mem_flatMap.mpr ⟨c, hcmem, by simp⟩
    · simp only [FindIdentities, findIdentities, hloop, WinStore.getError,
        WinStore.check, WinStore.Close, hp, hc, lastError, GoErr.cause]
      simp [hfc]
  · intro hfc
    refine ⟨?_, ?_⟩
    · simp only [FindIdentities, findIdentities, hloop, WinStore.getError,
        WinStore.check, WinStore.Close, hp, hc, lastError, GoErr.cause]
      simp [hfc]
    · simp only [FindIdentities, findIdentities, hloop, WinStore.getError,
        WinStore.check, WinStore.Close, hp, hc, lastError, GoErr.cause]
      simp [hfc]

/-- Witness for C7 at a concrete store of two entries whose iteration
ends with the genuine failure code 5. -/
theorem findIdentities_cleanup_on_failure_witness :
    ((5 : Nat) ≠ cryptENotFound →
      (FindIdentities (.ok (WinStore.mk true [⟨1, [5]⟩, ⟨2, [6]⟩] 5 none none false))).1 =
        .error (((lastError 5 "CertFindCertificateInStore failed").wrap
          "identity iteration failed").wrap "findIdentities failed") ∧
      (∀ c ∈ [CertCtx.mk 1 [5], CertCtx.mk 2 [6]],
        NativeCall.certFreeContext c.id ∈
          (FindIdentities (.ok (WinStore.mk true [⟨1, [5]⟩, ⟨2, [6]⟩] 5 none none false))).2) ∧
      NativeCall.certCloseStore ∈
        (FindIdentities (.ok (WinStore.mk true [⟨1, [5]⟩, ⟨2, [6]⟩] 5 none none false))).2) ∧
    ((5 : Nat) = cryptENotFound →
      (FindIdentities (.ok (WinStore.mk true [⟨1, [5]⟩, ⟨2, [6]⟩] 5 none none false))).1 =
        .ok ([CertCtx.mk 1 [5], CertCtx.mk 2 [6]].map fun c => (newWinIdentity c).1) ∧
      NativeCall.certCloseStore ∈
        (FindIdentities (.ok (WinStore.mk true [⟨1, [5]⟩, ⟨2, [6]⟩] 5 none none false))).2) :=
  findIdentities_cleanup_on_failure
    (WinStore.mk true [⟨1, [5]⟩, ⟨2, [6]⟩] 5 none none false) rfl rfl rfl rfl (by decide)
